/-
Verification of the MCP invocation bridge in `server.py`.

The file embeds, in Lean 4, the parts of the repository that the
specification talks about:

* the JSON data model (Python values as decoded by `resp.json()` and
  re-serialized by `json.dumps(result, indent=2)`), together with an
  executable serializer (`Json.dumps`, mirroring `json.dumps` with
  `indent=2` and `ensure_ascii=True`) and an executable parser
  (`Json.loads`, mirroring `json.loads`);
* the bridge function `_api` (`apiCall` below), including the
  process-wide session identity `_session_user_id`, Python truthiness
  of the `if user_id:` / `if _session_user_id:` tests, the header
  construction, the fixed `timeout=30`, `resp.raise_for_status()`
  (which, per the `requests` library, raises exactly for statuses in
  `[400, 600)`), and `resp.json()`;
* the sixteen registered tools (`ToolCall` / `runTool`), each mapping
  its arguments onto exactly one `apiCall` as in the source and
  returning `json.dumps(result, indent=2)` on success.

The backend is modelled as an oracle `HttpRequest → BackendOutcome`;
the request list in the outcome records every HTTP request performed,
so "exactly one backend request" is expressible.
-/
import Mathlib

set_option maxRecDepth 10000

/-! ### JSON values -/

/-- A JSON value, as decoded from the backend response body by
`resp.json()`.  Numbers are modelled as integers. -/
inductive Json where
  | null : Json
  | bool (b : Bool) : Json
  | num (n : Int) : Json
  | str (s : String) : Json
  | arr (elems : List Json) : Json
  | obj (fields : List (String × Json)) : Json

/-! ### Configuration constants (`server.py` lines 18-19, default values) -/

/-- The constant `API_BASE = os.getenv("API_BASE_URL", "http://localhost:5000")`. -/
def API_BASE : String := "http://localhost:5000"

/-- The constant `INTERNAL_KEY = os.getenv("INTERNAL_SERVICE_KEY", "dev-internal-key-change-in-prod")`. -/
def INTERNAL_KEY : String := "dev-internal-key-change-in-prod"

/-! ### Session state (`_session_user_id`, line 32) -/

/-- The process-wide mutable state of the server: the single variable
`_session_user_id : str | None = None`. -/
structure ApiState where
  sessionUserId : Option String
deriving Repr, DecidableEq

/-- The state at process start: `_session_user_id = None`. -/
def initState : ApiState := ⟨none⟩

/-- Python truthiness of a `str | None` value: `None` and `""` are falsy,
every other string is truthy.  Used for `if user_id:` and
`if _session_user_id:` in `_api`. -/
def strTruthy : Option String → Bool
  | none => false
  | some s => !(s == "")

/-! ### HTTP requests and the backend oracle -/

/-- One outbound HTTP request as handed to `requests.request`:
method, absolute url, the headers dict (as an association list in
insertion order), the `timeout=` argument, and the optional
`params=` / `json=` keyword arguments forwarded by the tools. -/
structure HttpRequest where
  method : String
  url : String
  headers : List (String × String)
  timeout : Nat
  params : Option (List (String × String))
  jsonBody : Option Json

/-- Look a header up in a request (headers are a dict; keys here are
unique by construction). -/
def HttpRequest.getHeader (r : HttpRequest) (name : String) : Option String :=
  r.headers.lookup name

/-- What the network does with one request: either the backend answers
with a status code and a body (`none` standing for a body that is not
valid JSON), or the request fails at the transport layer (timeout,
connection refused, DNS). -/
inductive BackendOutcome where
  | response (status : Nat) (body : Option Json)
  | transportFailure

/-- The errors an invocation can raise, mirroring the exceptions that
escape `_api`: `requests` transport exceptions (timeout, connection),
`requests.HTTPError` from `resp.raise_for_status()` (which carries the
response, hence the status code and the backend body), and the JSON
decode error from `resp.json()` on a non-JSON body. -/
inductive ApiError where
  | transport
  | upstream (status : Nat) (body : Option Json)
  | serialization

/-! ### The bridge `_api` (`server.py` lines 35-49) -/

/-- The first half of `_api`: update `_session_user_id` when `user_id`
is truthy, then build the request that will be performed —
`headers = {}`, `headers["X-Internal-Key"] = INTERNAL_KEY`, then
`headers["X-User-Id"] = _session_user_id` iff the (updated) session
user id is truthy; `url = f"{API_BASE}{path}"`, `timeout=30`. -/
def buildRequest (method path : String) (user_id : Option String)
    (params : Option (List (String × String))) (jsonBody : Option Json)
    (st : ApiState) : ApiState × HttpRequest :=
  let st' := if strTruthy user_id then ⟨user_id⟩ else st
  let headers := [("X-Internal-Key", INTERNAL_KEY)]
  let headers :=
    if strTruthy st'.sessionUserId then
      headers ++ [("X-User-Id", st'.sessionUserId.getD "")]
    else headers
  (st', ⟨method, API_BASE ++ path, headers, 30, params, jsonBody⟩)

/-- The check `resp.raise_for_status()` raises `requests.HTTPError` exactly for
status codes in `[400, 600)` (4xx "Client Error" and 5xx "Server
Error"); other statuses pass through silently. -/
def raiseForStatus (status : Nat) : Bool :=
  (400 ≤ status && status < 600)

/-- The second half of `_api`: `resp.raise_for_status()` followed by
`return resp.json()`, applied to whatever the network produced. -/
def handleResponse : BackendOutcome → Except ApiError Json
  | .transportFailure => .error .transport
  | .response status body =>
      if raiseForStatus status then .error (.upstream status body)
      else
        match body with
        | some j => .ok j
        | none => .error .serialization

/-- The outcome of one `_api` invocation: the state of
`_session_user_id` afterwards, the list of HTTP requests actually
performed, and the returned JSON value or raised error. -/
structure ApiOutcome where
  state : ApiState
  sent : List HttpRequest
  result : Except ApiError Json

/-- The bridge `_api(method, path, user_id=None, **kwargs)`: update the
session, build headers, perform exactly one request against the
backend, raise for status, decode JSON. -/
def apiCall (method path : String) (user_id : Option String)
    (params : Option (List (String × String))) (jsonBody : Option Json)
    (st : ApiState) (backend : HttpRequest → BackendOutcome) : ApiOutcome :=
  let (st', req) := buildRequest method path user_id params jsonBody st
  ⟨st', [req], handleResponse (backend req)⟩

/-! ### `json.dumps(result, indent=2)`

Python's `json.dumps` with `indent=2` and default options
(`ensure_ascii=True`, separators `','` and `': '`): empty containers
render as `[]` / `{}`, non-empty ones put every item on its own line
indented two further spaces, non-ASCII and control characters are
escaped to `\uXXXX` (lowercase hex, surrogate pairs above the BMP),
and `"`, `\`, and the short control escapes use their two-character
forms. -/

/-- Lowercase hexadecimal digit for `n < 16`. -/
def hexDigitChar (n : Nat) : Char :=
  if n < 10 then Char.ofNat (48 + n) else Char.ofNat (97 + (n - 10))

/-- The four hex digits of `n % 0x10000`, most significant first
(`'\u%04x' % n`). -/
def hex4 (n : Nat) : List Char :=
  [hexDigitChar (n / 4096 % 16), hexDigitChar (n / 256 % 16),
   hexDigitChar (n / 16 % 16), hexDigitChar (n % 16)]

/-- How `json.dumps` renders one character of a string
(`py_encode_basestring_ascii`). -/
def escapeChar (c : Char) : List Char :=
  if c = '\\' then ['\\', '\\']
  else if c = '"' then ['\\', '"']
  else if c = Char.ofNat 8 then ['\\', 'b']
  else if c = Char.ofNat 12 then ['\\', 'f']
  else if c = '\n' then ['\\', 'n']
  else if c = Char.ofNat 13 then ['\\', 'r']
  else if c = '\t' then ['\\', 't']
  else if c.toNat < 32 then '\\' :: 'u' :: hex4 c.toNat
  else if c.toNat < 127 then [c]
  else if c.toNat < 65536 then '\\' :: 'u' :: hex4 c.toNat
  else
    let v := c.toNat - 65536
    '\\' :: 'u' :: hex4 (55296 + v / 1024) ++ '\\' :: 'u' :: hex4 (56320 + v % 1024)

/-- Rendering of a whole string body: `json.dumps` escaping applied to every character. -/
def escapeChars : List Char → List Char
  | [] => []
  | c :: cs => escapeChar c ++ escapeChars cs

/-- Decimal digits of a natural number, most significant first. -/
def natToChars (n : Nat) : List Char :=
  if h : n < 10 then [Char.ofNat (48 + n)]
  else natToChars (n / 10) ++ [Char.ofNat (48 + n % 10)]
decreasing_by exact Nat.div_lt_self (by omega) (by omega)

/-- Python `repr` of an integer: optional minus sign, then digits. -/
def intToChars (i : Int) : List Char :=
  if i < 0 then '-' :: natToChars i.natAbs else natToChars i.natAbs

/-- A run of `ind` spaces of indentation. -/
def indentChars (ind : Nat) : List Char := List.replicate ind ' '

mutual

/-- One value as `json.dumps(v, indent=2)` renders it at indentation level `ind`
(the level of the line the value starts on). -/
def dumpsVal (ind : Nat) : Json → List Char
  | .null => "null".data
  | .bool true => "true".data
  | .bool false => "false".data
  | .num i => intToChars i
  | .str s => '"' :: (escapeChars s.data ++ ['"'])
  | .arr [] => ['[', ']']
  | .arr (x :: xs) =>
      '[' :: '\n' :: (dumpsItems (ind + 2) x xs ++ '\n' :: (indentChars ind ++ [']']))
  | .obj [] => ['\x7b', '\x7d']
  | .obj ((k, v) :: kvs) =>
      '\x7b' :: '\n' :: (dumpsFields (ind + 2) k v kvs ++ '\n' :: (indentChars ind ++ ['\x7d']))
termination_by j => sizeOf j

/-- The items of a non-empty array, one per line at level `ind`,
separated by `",\n"`. -/
def dumpsItems (ind : Nat) (x : Json) (xs : List Json) : List Char :=
  indentChars ind ++ (dumpsVal ind x ++
    match xs with
    | [] => []
    | y :: ys => ',' :: '\n' :: dumpsItems ind y ys)
termination_by sizeOf x + sizeOf xs
decreasing_by
  all_goals simp_wf
  all_goals try cases xs
  all_goals try simp
  all_goals omega

/-- The fields of a non-empty object, one `"key": value` per line at
level `ind`, separated by `",\n"`. -/
def dumpsFields (ind : Nat) (k : String) (v : Json) (kvs : List (String × Json)) : List Char :=
  indentChars ind ++ ('"' :: (escapeChars k.data ++ '"' :: ':' :: ' ' :: dumpsVal ind v) ++
    match kvs with
    | [] => []
    | (k2, v2) :: ps => ',' :: '\n' :: dumpsFields ind k2 v2 ps)
termination_by sizeOf v + sizeOf kvs
decreasing_by
  all_goals simp_wf
  all_goals try cases kvs
  all_goals try simp
  all_goals omega

end

/-- Serialization `json.dumps(v, indent=2)` as every tool calls it. -/
def Json.dumps (v : Json) : String := ⟨dumpsVal 0 v⟩

/-! ### The registered tools (`server.py` lines 56-312)

Each constructor carries exactly the tool's parameters; optional
parameters defaulting to `None` are `Option`-typed, parameters with a
non-`None` default carry the caller-visible value (the schema default
is filled in by the framework before the handler runs). -/

/-- One tool invocation with its arguments. -/
inductive ToolCall where
  | search_leads (user_id : String) (person_titles : Option (List String))
      (person_locations : Option (List String)) (q_keywords : Option String)
      (organization_num_employees_ranges : Option (List String))
  | enrich_lead (lead_id : String)
  | list_leads (user_id : String) (temperature : Option String)
  | get_lead (lead_id : String)
  | mark_do_not_contact (lead_id : String) (reason : String)
  | draft_message (lead_id : String) (channel : String) (context : String)
  | send_email (lead_id : String) (subject : String) (content : String)
  | send_sms (lead_id : String) (content : String)
  | place_call (lead_id : String) (script : String) (callback_url : String)
  | create_sequence (lead_id : String) (user_id : String) (channel : String)
      (num_steps : Int) (context : String) (auto_send : Bool)
  | outreach_history (lead_id : String)
  | classify_reply (reply_text : String)
  | process_reply (lead_id : String) (reply_text : String) (channel : String)
  | score_lead (lead_id : String)
  | get_hot_lead_notifications (user_id : String)
  | summarize_pipeline (user_id : String)

/-- Python truthiness of an optional list (`None` and `[]` are falsy). -/
def listTruthy : Option (List String) → Bool
  | none => false
  | some l => !l.isEmpty

/-- The `filters` dict built by `search_leads`: each filter key is added
only when the argument is truthy, in source order. -/
def searchFilters (person_titles person_locations : Option (List String))
    (q_keywords : Option String)
    (organization_num_employees_ranges : Option (List String)) : Json :=
  Json.obj
    ((if listTruthy person_titles then
        [("person_titles", Json.arr ((person_titles.getD []).map Json.str))] else []) ++
     (if listTruthy person_locations then
        [("person_locations", Json.arr ((person_locations.getD []).map Json.str))] else []) ++
     (if strTruthy q_keywords then
        [("q_keywords", Json.str (q_keywords.getD ""))] else []) ++
     (if listTruthy organization_num_employees_ranges then
        [("organization_num_employees_ranges",
          Json.arr ((organization_num_employees_ranges.getD []).map Json.str))] else []))

/-- The `params` dict built by `list_leads`: `{"temperature": t}` when
`t` is truthy, else empty. -/
def listLeadsParams (temperature : Option String) : List (String × String) :=
  if strTruthy temperature then [("temperature", temperature.getD "")] else []

/-- The single `_api` call a tool performs: method, path, `user_id`
argument, `params=` and `json=` keyword arguments, exactly as in the
source. -/
def toolApiArgs : ToolCall →
    String × String × Option String × Option (List (String × String)) × Option Json
  | .search_leads u pt pl qk ranges =>
      ("POST", "/leads/search", some u, none,
        some (Json.obj [("filters", searchFilters pt pl qk ranges)]))
  | .enrich_lead lid => ("POST", "/leads/enrich/" ++ lid, none, none, none)
  | .list_leads u temp => ("GET", "/leads/list", some u, some (listLeadsParams temp), none)
  | .get_lead lid => ("GET", "/leads/" ++ lid, none, none, none)
  | .mark_do_not_contact lid reason =>
      ("POST", "/leads/" ++ lid ++ "/dnc", none, none,
        some (Json.obj [("reason", Json.str reason)]))
  | .draft_message lid channel context =>
      ("POST", "/outreach/draft", none, none,
        some (Json.obj [("lead_id", Json.str lid), ("channel", Json.str channel),
                        ("context", Json.str context)]))
  | .send_email lid subject content =>
      ("POST", "/outreach/send/email", none, none,
        some (Json.obj [("lead_id", Json.str lid), ("subject", Json.str subject),
                        ("content", Json.str content)]))
  | .send_sms lid content =>
      ("POST", "/outreach/send/sms", none, none,
        some (Json.obj [("lead_id", Json.str lid), ("content", Json.str content)]))
  | .place_call lid script callback_url =>
      ("POST", "/outreach/send/call", none, none,
        some (Json.obj [("lead_id", Json.str lid), ("script", Json.str script),
                        ("callback_url", Json.str callback_url)]))
  | .create_sequence lid u channel num_steps context auto_send =>
      ("POST", "/outreach/sequence", some u, none,
        some (Json.obj [("lead_id", Json.str lid), ("channel", Json.str channel),
                        ("num_steps", Json.num num_steps), ("context", Json.str context),
                        ("auto_send", Json.bool auto_send)]))
  | .outreach_history lid => ("GET", "/outreach/history/" ++ lid, none, none, none)
  | .classify_reply reply_text =>
      ("POST", "/scoring/classify", none, none,
        some (Json.obj [("reply_text", Json.str reply_text)]))
  | .process_reply lid reply_text channel =>
      ("POST", "/scoring/process-reply", none, none,
        some (Json.obj [("lead_id", Json.str lid), ("reply_text", Json.str reply_text),
                        ("channel", Json.str channel)]))
  | .score_lead lid => ("POST", "/scoring/score/" ++ lid, none, none, none)
  | .get_hot_lead_notifications u => ("GET", "/notifications/hot-leads", some u, none, none)
  | .summarize_pipeline u => ("GET", "/notifications/pipeline-summary", some u, none, none)

/-- The `user_id` argument a tool passes to `_api` (`none` for the
tools that are keyed only by `lead_id` or free text). -/
def toolUserId (tc : ToolCall) : Option String := (toolApiArgs tc).2.2.1

/-- The outcome of one tool invocation: final session state, the HTTP
requests performed, and the returned text (`json.dumps(result,
indent=2)`) or the propagated error. -/
structure ToolOutcome where
  state : ApiState
  sent : List HttpRequest
  result : Except ApiError String

/-- Run one tool: dispatch to its `_api` call, then serialize the
returned JSON value with `json.dumps(result, indent=2)`. -/
def runTool (tc : ToolCall) (st : ApiState)
    (backend : HttpRequest → BackendOutcome) : ToolOutcome :=
  let (method, path, user_id, params, body) := toolApiArgs tc
  let o := apiCall method path user_id params body st backend
  ⟨o.state, o.sent, o.result.map Json.dumps⟩

/-- The request a tool invocation performs, together with the updated
session state (the request is fully determined by the tool call and
the prior state — the backend is consulted only after it is built). -/
def toolRequest (tc : ToolCall) (st : ApiState) : ApiState × HttpRequest :=
  let (method, path, user_id, params, body) := toolApiArgs tc
  buildRequest method path user_id params body st

/-- A whole session: fold a sequence of tool invocations (each with the
backend behavior in effect for it) over the process state. -/
def runSeq (calls : List (ToolCall × (HttpRequest → BackendOutcome)))
    (st : ApiState) : ApiState :=
  calls.foldl (fun s c => (runTool c.1 s c.2).state) st

/-! ### `json.loads`

An executable JSON parser, used to state the round-trip property: the
text a tool returns, parsed again, is the original backend value.  It
follows `json.loads` (strict mode): the four whitespace characters are
skipped between tokens, strings decode the standard escapes including
`\uXXXX` and surrogate pairs and reject raw control characters,
numbers are decimal integers, and trailing garbage is rejected. -/

/-- JSON whitespace (space, tab, newline, carriage return). -/
def isWsChar (c : Char) : Bool :=
  c = ' ' || c = '\t' || c = '\n' || c = Char.ofNat 13

/-- Drop leading JSON whitespace. -/
def skipWs : List Char → List Char
  | [] => []
  | c :: cs => if isWsChar c then skipWs cs else c :: cs

/-- Value of one hexadecimal digit (either case). -/
def hexVal (c : Char) : Option Nat :=
  if '0' ≤ c ∧ c ≤ '9' then some (c.toNat - 48)
  else if 'a' ≤ c ∧ c ≤ 'f' then some (c.toNat - 87)
  else if 'A' ≤ c ∧ c ≤ 'F' then some (c.toNat - 55)
  else none

/-- Value of a four-digit hex escape sequence. -/
def hex4Val (a b c d : Char) : Option Nat := do
  let x ← hexVal a
  let y ← hexVal b
  let z ← hexVal c
  let w ← hexVal d
  pure (x * 4096 + y * 256 + z * 16 + w)

/-- The character denoted by a two-character escape `\e`. -/
def escTable (e : Char) : Option Char :=
  if e = '"' then some '"'
  else if e = '\\' then some '\\'
  else if e = '/' then some '/'
  else if e = 'b' then some (Char.ofNat 8)
  else if e = 'f' then some (Char.ofNat 12)
  else if e = 'n' then some '\n'
  else if e = 'r' then some (Char.ofNat 13)
  else if e = 't' then some '\t'
  else none

mutual

/-- Decode the body of a JSON string up to (and consuming) the closing
quote; returns the decoded characters and the rest of the input.
Strict mode: raw control characters are rejected. -/
def parseStringBody : List Char → Option (List Char × List Char)
  | [] => none
  | c :: rest =>
    if c = '"' then some ([], rest)
    else if c = '\\' then parseEscape rest
    else if c.toNat < 32 then none
    else do
      let (s, r) ← parseStringBody rest
      pure (c :: s, r)
termination_by cs => cs.length

/-- Decode what follows a backslash inside a JSON string. -/
def parseEscape : List Char → Option (List Char × List Char)
  | [] => none
  | e :: rest2 =>
    if e = 'u' then parseUnicode rest2
    else do
      let c' ← escTable e
      let (s, r) ← parseStringBody rest2
      pure (c' :: s, r)
termination_by cs => cs.length

/-- Decode the four hex digits of a `\uXXXX` escape, handling a leading
high surrogate (rejecting a lone low surrogate). -/
def parseUnicode : List Char → Option (List Char × List Char)
  | a :: b :: c :: d :: rest3 => do
    let n ← hex4Val a b c d
    if 55296 ≤ n ∧ n < 56320 then parseLowSurrogate n rest3
    else if 56320 ≤ n ∧ n < 57344 then none
    else do
      let (s, r) ← parseStringBody rest3
      pure (Char.ofNat n :: s, r)
  | _ => none
termination_by cs => cs.length

/-- After a high surrogate `hi`, decode the mandatory `\uXXXX` low
surrogate and combine the pair into one character. -/
def parseLowSurrogate (hi : Nat) : List Char → Option (List Char × List Char)
  | e2 :: u2 :: a2 :: b2 :: c2 :: d2 :: rest4 =>
    if e2 = '\\' ∧ u2 = 'u' then do
      let m ← hex4Val a2 b2 c2 d2
      if 56320 ≤ m ∧ m < 57344 then do
        let (s, r) ← parseStringBody rest4
        pure (Char.ofNat ((hi - 55296) * 1024 + (m - 56320) + 65536) :: s, r)
      else none
    else none
  | _ => none
termination_by cs => cs.length

end

/-- Is this character a decimal digit? -/
def isDigitChar (c : Char) : Bool := '0' ≤ c && c ≤ '9'

/-- Numeric value of a decimal digit character. -/
def digitVal (c : Char) : Nat := c.toNat - 48

/-- Does the input start with a decimal digit? -/
def headIsDigit : List Char → Bool
  | [] => false
  | c :: _ => isDigitChar c

/-- Consume a maximal run of digits, accumulating their value onto `acc`. -/
def parseDigitsAux : List Char → Nat → Nat × List Char
  | [], acc => (acc, [])
  | c :: cs, acc =>
      if isDigitChar c then parseDigitsAux cs (acc * 10 + digitVal c)
      else (acc, c :: cs)

/-- Parse a non-empty run of digits as a natural number. -/
def parseNat : List Char → Option (Nat × List Char)
  | [] => none
  | c :: cs => if isDigitChar c then some (parseDigitsAux cs (digitVal c)) else none

mutual

/-- Parse one JSON value (after skipping leading whitespace).  `fuel`
bounds the recursion depth; `Json.loads` supplies enough for any
input. -/
def parseValue : Nat → List Char → Option (Json × List Char)
  | 0, _ => none
  | fuel + 1, cs =>
    match skipWs cs with
    | [] => none
    | c :: r =>
      if c = 'n' then
        match r with
        | 'u' :: 'l' :: 'l' :: r2 => some (.null, r2)
        | _ => none
      else if c = 't' then
        match r with
        | 'r' :: 'u' :: 'e' :: r2 => some (.bool true, r2)
        | _ => none
      else if c = 'f' then
        match r with
        | 'a' :: 'l' :: 's' :: 'e' :: r2 => some (.bool false, r2)
        | _ => none
      else if c = '"' then
        (parseStringBody r).map (fun p => (.str ⟨p.1⟩, p.2))
      else if c = '[' then
        match skipWs r with
        | [] => none
        | c2 :: r2 =>
          if c2 = ']' then some (.arr [], r2)
          else (parseItems fuel r).map (fun p => (.arr p.1, p.2))
      else if c = '\x7b' then
        match skipWs r with
        | [] => none
        | c2 :: r2 =>
          if c2 = '\x7d' then some (.obj [], r2)
          else (parseFields fuel r).map (fun p => (.obj p.1, p.2))
      else if c = '-' then
        (parseNat r).map (fun p => (.num (-(p.1 : Int)), p.2))
      else if isDigitChar c then
        (parseNat (c :: r)).map (fun p => (.num (p.1 : Int), p.2))
      else none

/-- Parse the elements of a non-empty array, consuming the closing `]`. -/
def parseItems : Nat → List Char → Option (List Json × List Char)
  | 0, _ => none
  | fuel + 1, cs => do
    let (v, r) ← parseValue fuel cs
    match skipWs r with
    | [] => none
    | c2 :: r2 =>
      if c2 = ',' then do
        let (xs, r3) ← parseItems fuel r2
        pure (v :: xs, r3)
      else if c2 = ']' then pure ([v], r2)
      else none

/-- Parse the fields of a non-empty object, consuming the closing `}`. -/
def parseFields : Nat → List Char → Option (List (String × Json) × List Char)
  | 0, _ => none
  | fuel + 1, cs =>
    match skipWs cs with
    | [] => none
    | c :: r =>
      if c = '"' then do
        let (k, r1) ← parseStringBody r
        match skipWs r1 with
        | [] => none
        | c2 :: r2 =>
          if c2 = ':' then do
            let (v, r3) ← parseValue fuel r2
            match skipWs r3 with
            | [] => none
            | c3 :: r4 =>
              if c3 = ',' then do
                let (fs, r5) ← parseFields fuel r4
                pure ((⟨k⟩, v) :: fs, r5)
              else if c3 = '\x7d' then pure ([(⟨k⟩, v)], r4)
              else none
          else none
      else none

end

/-- Parsing `json.loads`: parse a complete JSON document, rejecting anything
but whitespace after the value. -/
def Json.loads (s : String) : Option Json :=
  match parseValue (s.length + 1) s.data with
  | some (v, rest) => if (skipWs rest).isEmpty then some v else none
  | none => none

/-! ### Fuel measure for the parser (proof infrastructure) -/

mutual

/-- An upper bound on the parser fuel needed for one value. -/
def needVal : Json → Nat
  | .null => 1
  | .bool _ => 1
  | .num _ => 1
  | .str _ => 1
  | .arr [] => 1
  | .arr (x :: xs) => 1 + needItems x xs
  | .obj [] => 1
  | .obj ((_, v) :: kvs) => 1 + needFields v kvs
termination_by j => sizeOf j

/-- Fuel bound for a non-empty list of array elements. -/
def needItems (x : Json) (xs : List Json) : Nat :=
  1 + needVal x +
    match xs with
    | [] => 0
    | y :: ys => needItems y ys
termination_by sizeOf x + sizeOf xs
decreasing_by
  all_goals simp_wf
  all_goals try cases xs
  all_goals try simp
  all_goals omega

/-- Fuel bound for a non-empty list of object fields. -/
def needFields (v : Json) (kvs : List (String × Json)) : Nat :=
  1 + needVal v +
    match kvs with
    | [] => 0
    | (_, v2) :: ps => needFields v2 ps
termination_by sizeOf v + sizeOf kvs
decreasing_by
  all_goals simp_wf
  all_goals try cases kvs
  all_goals try simp
  all_goals omega

end

/-! ## Lemmas about the bridge -/

theorem buildRequest_state (method path : String) (user_id : Option String)
    (params : Option (List (String × String))) (jsonBody : Option Json) (st : ApiState) :
    (buildRequest method path user_id params jsonBody st).1 =
      if strTruthy user_id then ⟨user_id⟩ else st := rfl

theorem buildRequest_internal_header (method path : String) (user_id : Option String)
    (params : Option (List (String × String))) (jsonBody : Option Json) (st : ApiState) :
    (buildRequest method path user_id params jsonBody st).2.getHeader "X-Internal-Key" =
      some INTERNAL_KEY := by
  simp only [buildRequest, HttpRequest.getHeader]
  split <;> (try split) <;> simp [List.lookup]

theorem buildRequest_user_header (method path : String) (user_id : Option String)
    (params : Option (List (String × String))) (jsonBody : Option Json) (st : ApiState) :
    (buildRequest method path user_id params jsonBody st).2.getHeader "X-User-Id" =
      (if strTruthy (buildRequest method path user_id params jsonBody st).1.sessionUserId
        then (buildRequest method path user_id params jsonBody st).1.sessionUserId
        else none) := by
  simp only [buildRequest, HttpRequest.getHeader]
  by_cases h : strTruthy (if strTruthy user_id then (⟨user_id⟩ : ApiState) else st).sessionUserId
  · rcases hs : (if strTruthy user_id then (⟨user_id⟩ : ApiState) else st).sessionUserId with _ | u
    · rw [hs] at h; simp [strTruthy] at h
    · rw [hs] at h; simp [h, hs, List.lookup]
  · simp [h, List.lookup]

theorem buildRequest_timeout (method path : String) (user_id : Option String)
    (params : Option (List (String × String))) (jsonBody : Option Json) (st : ApiState) :
    (buildRequest method path user_id params jsonBody st).2.timeout = 30 := by
  simp only [buildRequest]

theorem runTool_eq (tc : ToolCall) (st : ApiState) (b : HttpRequest → BackendOutcome) :
    runTool tc st b =
      ⟨(toolRequest tc st).1, [(toolRequest tc st).2],
        (handleResponse (b (toolRequest tc st).2)).map Json.dumps⟩ := by
  cases tc <;> rfl

theorem toolRequest_state (tc : ToolCall) (st : ApiState) :
    (toolRequest tc st).1 = if strTruthy (toolUserId tc) then ⟨toolUserId tc⟩ else st := by
  cases tc <;> rfl

theorem toolRequest_user_header (tc : ToolCall) (st : ApiState) :
    (toolRequest tc st).2.getHeader "X-User-Id" =
      (if strTruthy (toolRequest tc st).1.sessionUserId
        then (toolRequest tc st).1.sessionUserId else none) := by
  cases tc <;> exact buildRequest_user_header _ _ _ _ _ _

theorem toolRequest_internal_header (tc : ToolCall) (st : ApiState) :
    (toolRequest tc st).2.getHeader "X-Internal-Key" = some INTERNAL_KEY := by
  cases tc <;> exact buildRequest_internal_header _ _ _ _ _ _

theorem toolRequest_timeout (tc : ToolCall) (st : ApiState) :
    (toolRequest tc st).2.timeout = 30 := by
  cases tc <;> exact buildRequest_timeout _ _ _ _ _ _

theorem strTruthy_some_ne {u : String} (h : u ≠ "") : strTruthy (some u) = true := by
  simp [strTruthy, h]

/-! ## Claims about session identity and headers -/

/-- C1: for every call of `_api`, the `X-User-Id` header is attached iff
the session identity is set when the request is built; a `user_id`-less
tool (`enrich_lead`) invoked after a prior invocation that supplied a
user identifier sends that same identifier, and `get_lead` invoked
before any `user_id`-bearing call sends no `X-User-Id` header. -/
theorem C1_user_header_iff :
    (∀ (tc : ToolCall) (st : ApiState) (backend : HttpRequest → BackendOutcome),
      ∀ req ∈ (runTool tc st backend).sent,
        req.getHeader "X-User-Id" =
          (if strTruthy (runTool tc st backend).state.sessionUserId
            then (runTool tc st backend).state.sessionUserId else none))
    ∧ (∀ (tc₁ : ToolCall) (st₀ : ApiState) (b₁ b₂ : HttpRequest → BackendOutcome)
        (u lead_id : String),
        toolUserId tc₁ = some u → u ≠ "" →
        ∀ req ∈ (runTool (.enrich_lead lead_id) (runTool tc₁ st₀ b₁).state b₂).sent,
          req.getHeader "X-User-Id" = some u)
    ∧ (∀ (lead_id : String) (b : HttpRequest → BackendOutcome),
        ∀ req ∈ (runTool (.get_lead lead_id) initState b).sent,
          req.getHeader "X-User-Id" = none) := by
  refine ⟨?_, ?_, ?_⟩
  · intro tc st backend req hreq
    rw [runTool_eq] at hreq ⊢
    simp only [List.mem_singleton] at hreq
    subst hreq
    exact toolRequest_user_header tc st
  · intro tc₁ st₀ b₁ b₂ u lead_id hu hne req hreq
    have hstate : (runTool tc₁ st₀ b₁).state = ⟨some u⟩ := by
      rw [runTool_eq]
      simp only
      rw [toolRequest_state, hu, if_pos (strTruthy_some_ne hne)]
    rw [runTool_eq, hstate] at hreq
    simp only [List.mem_singleton] at hreq
    subst hreq
    rw [toolRequest_user_header, toolRequest_state]
    simp [toolUserId, toolApiArgs, strTruthy, beq_eq_false_iff_ne.mpr hne]
  · intro lead_id b req hreq
    rw [runTool_eq] at hreq
    simp only [List.mem_singleton] at hreq
    subst hreq
    rw [toolRequest_user_header, toolRequest_state]
    simp [toolUserId, toolApiArgs, strTruthy, initState]

/-- Witness for C1 at concrete inputs: after `search_leads(user_id="u1")`
the `enrich_lead` request carries `X-User-Id: u1`; a fresh `get_lead`
request carries no `X-User-Id`. -/
theorem C1_user_header_iff_witness :
    toolUserId (.search_leads "u1" none none none none) = some "u1"
    ∧ (toolRequest (.enrich_lead "l7")
        (runTool (.search_leads "u1" none none none none) initState
          (fun _ => .response 200 (some Json.null))).state).2.getHeader "X-User-Id"
        = some "u1"
    ∧ (toolRequest (.get_lead "l1") initState).2.getHeader "X-User-Id" = none :=
  ⟨rfl,
   C1_user_header_iff.2.1 (.search_leads "u1" none none none none) initState
     (fun _ => .response 200 (some Json.null)) (fun _ => .response 200 (some Json.null))
     "u1" "l7" rfl (by decide) _ (List.mem_singleton.mpr rfl),
   C1_user_header_iff.2.2 "l1" (fun _ => .response 200 (some Json.null)) _
     (List.mem_singleton.mpr rfl)⟩

/-- C2 counterexample: with `user_id=""` (present but empty, hence falsy
in Python), `_api` does not overwrite the session identity with the
supplied identifier, and the request does not carry it — the prior
identity `"alice"` is kept and sent instead. -/
theorem C2_overwrite_counterexample :
    (apiCall "GET" "/leads/l1" (some "") none none ⟨some "alice"⟩
        (fun _ => .response 200 (some Json.null))).state ≠ ⟨some ""⟩
    ∧ ((apiCall "GET" "/leads/l1" (some "") none none ⟨some "alice"⟩
        (fun _ => .response 200 (some Json.null))).sent.map
          (fun r => r.getHeader "X-User-Id")) = [some "alice"] :=
  ⟨by decide, rfl⟩

/-- C2 (amended to non-empty identifiers): for every `_api` invocation
whose `user_id` argument is present and non-empty, the session identity
is overwritten with it before the request is performed, and the request
itself already carries it in `X-User-Id`. -/
theorem C2_overwrite_before_send :
    ∀ (method path u : String) (params : Option (List (String × String)))
      (jsonBody : Option Json) (st : ApiState) (backend : HttpRequest → BackendOutcome),
      u ≠ "" →
      (apiCall method path (some u) params jsonBody st backend).state = ⟨some u⟩
      ∧ ∀ req ∈ (apiCall method path (some u) params jsonBody st backend).sent,
          req.getHeader "X-User-Id" = some u := by
  intro method path u params jsonBody st backend hne
  have hst : (buildRequest method path (some u) params jsonBody st).1 = ⟨some u⟩ := by
    rw [buildRequest_state, if_pos (strTruthy_some_ne hne)]
  constructor
  · exact hst
  · intro req hreq
    simp only [apiCall, List.mem_singleton] at hreq
    subst hreq
    rw [buildRequest_user_header, hst]
    simp [strTruthy, beq_eq_false_iff_ne.mpr hne]

/-- Witness for C2 (amended) at a concrete input. -/
theorem C2_overwrite_before_send_witness :
    (apiCall "POST" "/leads/search" (some "bob") none none initState
        (fun _ => .transportFailure)).state = ⟨some "bob"⟩ :=
  (C2_overwrite_before_send "POST" "/leads/search" "bob" none none initState
    (fun _ => .transportFailure) (by decide)).1

/-- C3: every backend request of every tool invocation, whatever the
session state, carries the static `X-Internal-Key` credential header. -/
theorem C3_internal_key_always :
    ∀ (tc : ToolCall) (st : ApiState) (backend : HttpRequest → BackendOutcome),
      ∀ req ∈ (runTool tc st backend).sent,
        req.getHeader "X-Internal-Key" = some INTERNAL_KEY := by
  intro tc st backend req hreq
  rw [runTool_eq] at hreq
  simp only [List.mem_singleton] at hreq
  subst hreq
  exact toolRequest_internal_header tc st

/-- Witness for C3 at a concrete input. -/
theorem C3_internal_key_always_witness :
    (toolRequest (.get_lead "l1") initState).2.getHeader "X-Internal-Key"
      = some INTERNAL_KEY :=
  C3_internal_key_always (.get_lead "l1") initState (fun _ => .transportFailure) _
    (List.mem_singleton.mpr rfl)

/-- C4 counterexample: a backend response with the non-2xx status 304
and a JSON body does not fail at all — `raise_for_status` raises only
for 4xx/5xx, so the invocation returns the body as a success, not an
`UpstreamError` carrying status 304. -/
theorem C4_non2xx_counterexample :
    (apiCall "GET" "/leads/l1" none none none initState
        (fun _ => .response 304 (some (Json.obj [])))).result = .ok (Json.obj []) :=
  rfl

/-- C4 (amended to 4xx/5xx): for every backend response with a status in
`[400, 600)`, the invocation fails with an `UpstreamError` carrying that
status code and the backend response body (hence the backend-supplied
message) verbatim. -/
theorem C4_upstream_error :
    ∀ (tc : ToolCall) (st : ApiState) (backend : HttpRequest → BackendOutcome)
      (status : Nat) (body : Option Json),
      backend (toolRequest tc st).2 = .response status body →
      400 ≤ status → status < 600 →
      (runTool tc st backend).result = .error (.upstream status body) := by
  intro tc st backend status body hresp h4 h6
  rw [runTool_eq]
  simp only [hresp]
  have hraise : raiseForStatus status = true := by
    simp only [raiseForStatus, Bool.and_eq_true, decide_eq_true_eq]
    exact ⟨h4, h6⟩
  simp [handleResponse, hraise, Except.map]

/-- Witness for C4 (amended): an HTTP 404 with body
`{"error": "not found"}` surfaces as an `UpstreamError` carrying status
404 and that body (message "not found") verbatim. -/
theorem C4_upstream_error_witness :
    (runTool (.get_lead "l1") initState
        (fun _ => .response 404 (some (Json.obj [("error", Json.str "not found")])))).result
      = .error (.upstream 404 (some (Json.obj [("error", Json.str "not found")]))) :=
  C4_upstream_error (.get_lead "l1") initState
    (fun _ => .response 404 (some (Json.obj [("error", Json.str "not found")])))
    404 (some (Json.obj [("error", Json.str "not found")]))
    rfl (by decide) (by decide)

/-- C5: every tool invocation performs exactly one backend request, that
request carries the fixed deadline `timeout=30`, and if the transport
layer fails (deadline exceeded) the invocation fails with a
`TransportError` — no retry happens. -/
theorem C5_timeout_single_request :
    ∀ (tc : ToolCall) (st : ApiState) (backend : HttpRequest → BackendOutcome),
      (runTool tc st backend).sent = [(toolRequest tc st).2]
      ∧ (toolRequest tc st).2.timeout = 30
      ∧ (backend (toolRequest tc st).2 = .transportFailure →
          (runTool tc st backend).result = .error .transport) := by
  intro tc st backend
  refine ⟨by rw [runTool_eq], toolRequest_timeout tc st, fun h => ?_⟩
  rw [runTool_eq]
  simp [h, handleResponse, Except.map]

/-- Witness for C5 at a concrete input with a timing-out backend. -/
theorem C5_timeout_single_request_witness :
    (runTool (.score_lead "l3") initState (fun _ => .transportFailure)).sent
        = [(toolRequest (.score_lead "l3") initState).2]
    ∧ (toolRequest (.score_lead "l3") initState).2.timeout = 30
    ∧ (runTool (.score_lead "l3") initState (fun _ => .transportFailure)).result
        = .error .transport :=
  ⟨(C5_timeout_single_request (.score_lead "l3") initState (fun _ => .transportFailure)).1,
   (C5_timeout_single_request (.score_lead "l3") initState (fun _ => .transportFailure)).2.1,
   (C5_timeout_single_request (.score_lead "l3") initState (fun _ => .transportFailure)).2.2 rfl⟩

/-- C7: a `search_leads` invocation with none of the optional filter
parameters supplied sends a request body whose `filters` object is
empty — the filter keys are entirely absent, not present with null
values. -/
theorem C7_empty_filters :
    ∀ (u : String) (st : ApiState) (backend : HttpRequest → BackendOutcome),
      ∀ req ∈ (runTool (.search_leads u none none none none) st backend).sent,
        req.jsonBody = some (Json.obj [("filters", Json.obj [])]) := by
  intro u st backend req hreq
  rw [runTool_eq] at hreq
  simp only [List.mem_singleton] at hreq
  subst hreq
  rfl

/-- Witness for C7 at a concrete input. -/
theorem C7_empty_filters_witness :
    (toolRequest (.search_leads "u1" none none none none) initState).2.jsonBody
      = some (Json.obj [("filters", Json.obj [])]) :=
  C7_empty_filters "u1" initState (fun _ => .transportFailure) _
    (List.mem_singleton.mpr rfl)

/-- C8: the session identity starts unset, is overwritten by every
invocation carrying a (truthy) user identifier and otherwise left
untouched, and no invocation ever resets a set identity to unset —
over any sequence of tool invocations a set identity stays set. -/
theorem C8_session_lifecycle :
    initState.sessionUserId = none
    ∧ (∀ (tc : ToolCall) (st : ApiState) (b : HttpRequest → BackendOutcome),
        (runTool tc st b).state =
          if strTruthy (toolUserId tc) then ⟨toolUserId tc⟩ else st)
    ∧ (∀ (calls : List (ToolCall × (HttpRequest → BackendOutcome))) (st : ApiState),
        st.sessionUserId ≠ none → (runSeq calls st).sessionUserId ≠ none) := by
  have hstep : ∀ (tc : ToolCall) (st : ApiState) (b : HttpRequest → BackendOutcome),
      (runTool tc st b).state =
        if strTruthy (toolUserId tc) then ⟨toolUserId tc⟩ else st := by
    intro tc st b
    rw [runTool_eq]
    exact toolRequest_state tc st
  refine ⟨rfl, hstep, ?_⟩
  intro calls
  induction calls with
  | nil => intro st h; exact h
  | cons c cs ih =>
    intro st h
    have h2 : ((runTool c.1 st c.2).state).sessionUserId ≠ none := by
      rw [hstep]
      rcases hu : toolUserId c.1 with _ | u
      · simpa [hu, strTruthy] using h
      · by_cases he : u = ""
        · simpa [hu, he, strTruthy] using h
        · simp [hu, strTruthy, beq_eq_false_iff_ne.mpr he]
    simpa [runSeq, List.foldl_cons] using ih (runTool c.1 st c.2).state h2

/-- Witness for C8: a set identity survives a later identifier-less call. -/
theorem C8_session_lifecycle_witness :
    (⟨some "u0"⟩ : ApiState).sessionUserId ≠ none
    ∧ (runSeq [(.get_lead "l1", fun _ => .transportFailure)]
        ⟨some "u0"⟩).sessionUserId ≠ none :=
  ⟨by decide,
   C8_session_lifecycle.2.2 [(.get_lead "l1", fun _ => .transportFailure)]
     ⟨some "u0"⟩ (by decide)⟩

/-- C9 (implicit): the session-identity mutation is not rolled back on
failure — if `_api` is given a non-empty `user_id` and the backend call
then fails, the session identity still equals that identifier
afterwards, and a subsequent identifier-less invocation authenticates
with it. -/
theorem C9_no_rollback_on_failure :
    ∀ (method path u : String) (params : Option (List (String × String)))
      (jsonBody : Option Json) (st : ApiState)
      (backend : HttpRequest → BackendOutcome) (e : ApiError),
      u ≠ "" →
      (apiCall method path (some u) params jsonBody st backend).result = .error e →
      (apiCall method path (some u) params jsonBody st backend).state = ⟨some u⟩
      ∧ (∀ (m2 p2 : String) (q2 : Option (List (String × String)))
           (b2 : Option Json) (backend2 : HttpRequest → BackendOutcome),
          ∀ req ∈ (apiCall m2 p2 none q2 b2 ⟨some u⟩ backend2).sent,
            req.getHeader "X-User-Id" = some u) := by
  intro method path u params jsonBody st backend e hne _herr
  refine ⟨(C2_overwrite_before_send method path u params jsonBody st backend hne).1, ?_⟩
  intro m2 p2 q2 b2 backend2 req hreq
  simp only [apiCall, List.mem_singleton] at hreq
  subst hreq
  rw [buildRequest_user_header, buildRequest_state]
  simp [strTruthy, beq_eq_false_iff_ne.mpr hne]

/-- Witness for C9: a failing call that supplied `"carol"` leaves the
session identity at `"carol"`, and the next identifier-less call sends
it. -/
theorem C9_no_rollback_on_failure_witness :
    (apiCall "POST" "/leads/search" (some "carol") none none initState
        (fun _ => .transportFailure)).state = ⟨some "carol"⟩
    ∧ (toolRequest (.get_lead "l1") ⟨some "carol"⟩).2.getHeader "X-User-Id"
        = some "carol" :=
  ⟨(C9_no_rollback_on_failure "POST" "/leads/search" "carol" none none initState
      (fun _ => .transportFailure) .transport (by decide) rfl).1,
   (C9_no_rollback_on_failure "POST" "/leads/search" "carol" none none initState
      (fun _ => .transportFailure) .transport (by decide) rfl).2
     "GET" "/leads/l1" none none (fun _ => .transportFailure) _
     (List.mem_singleton.mpr rfl)⟩

/-- C10 (implicit): an empty-string `user_id` is treated exactly like an
absent one — the whole invocation outcome is identical to the `None`
case, the session identity is left unchanged, and the `X-User-Id`
header reflects the prior session identity, not the empty string. -/
theorem C10_empty_user_id_like_absent :
    ∀ (method path : String) (params : Option (List (String × String)))
      (jsonBody : Option Json) (st : ApiState) (backend : HttpRequest → BackendOutcome),
      apiCall method path (some "") params jsonBody st backend =
        apiCall method path none params jsonBody st backend
      ∧ (apiCall method path (some "") params jsonBody st backend).state = st
      ∧ (∀ req ∈ (apiCall method path (some "") params jsonBody st backend).sent,
          req.getHeader "X-User-Id" =
            (if strTruthy st.sessionUserId then st.sessionUserId else none)) := by
  intro method path params jsonBody st backend
  refine ⟨rfl, rfl, ?_⟩
  intro req hreq
  simp only [apiCall, List.mem_singleton] at hreq
  subst hreq
  rw [buildRequest_user_header, buildRequest_state]
  simp [strTruthy]

/-- Witness for C10 at a concrete input with prior identity `"dan"`. -/
theorem C10_empty_user_id_like_absent_witness :
    (apiCall "GET" "/leads/list" (some "") none none ⟨some "dan"⟩
        (fun _ => .transportFailure)).state = ⟨some "dan"⟩
    ∧ (toolRequest (.get_lead "l1") ⟨some "dan"⟩).2.getHeader "X-User-Id"
        = some "dan" :=
  ⟨(C10_empty_user_id_like_absent "GET" "/leads/list" none none ⟨some "dan"⟩
      (fun _ => .transportFailure)).2.1,
   by
    have h := (C10_empty_user_id_like_absent "GET" "/leads/l1" none none ⟨some "dan"⟩
      (fun _ => .transportFailure)).2.2 _ (List.mem_singleton.mpr rfl)
    simpa [strTruthy] using h⟩

/-! ## Round-trip machinery: whitespace -/

theorem skipWs_cons_of_ws {c : Char} (h : isWsChar c = true) (l : List Char) :
    skipWs (c :: l) = skipWs l := by simp [skipWs, h]

theorem skipWs_cons_of_not_ws {c : Char} (h : isWsChar c = false) (l : List Char) :
    skipWs (c :: l) = c :: l := by simp [skipWs, h]

theorem skipWs_append_ws {ws : List Char} (h : ∀ c ∈ ws, isWsChar c = true)
    (l : List Char) : skipWs (ws ++ l) = skipWs l := by
  induction ws with
  | nil => rfl
  | cons c cs ih =>
      rw [List.cons_append, skipWs_cons_of_ws (h c (List.mem_cons_self c cs))]
      exact ih (fun d hd => h d (List.mem_cons_of_mem c hd))

theorem indentChars_ws (n : Nat) : ∀ c ∈ indentChars n, isWsChar c = true := by
  intro c hc
  rw [indentChars] at hc
  rw [List.eq_of_mem_replicate hc]
  decide

/-! ## Round-trip machinery: characters and hex digits -/

theorem toNat_ofNat_valid {n : Nat} (h : n.isValidChar) : (Char.ofNat n).toNat = n := by
  unfold Char.ofNat
  rw [dif_pos h]
  show (UInt32.mk (BitVec.ofNatLt n _)).toNat = n
  simp [UInt32.toNat, BitVec.toNat_ofNatLt]

theorem toNat_ofNat_lt {n : Nat} (h : n < 55296) : (Char.ofNat n).toNat = n :=
  toNat_ofNat_valid (Or.inl h)

theorem char_toNat_valid (c : Char) :
    c.toNat < 55296 ∨ (57344 ≤ c.toNat ∧ c.toNat < 1114112) := by
  rcases c.valid with h | h
  · exact Or.inl h
  · exact Or.inr ⟨h.1, h.2⟩

theorem hexVal_hexDigitChar {m : Nat} (h : m < 16) : hexVal (hexDigitChar m) = some m := by
  interval_cases m <;> decide

theorem hex4Val_hex4 {n : Nat} (h : n < 65536) :
    hex4Val (hexDigitChar (n / 4096 % 16)) (hexDigitChar (n / 256 % 16))
      (hexDigitChar (n / 16 % 16)) (hexDigitChar (n % 16)) = some n := by
  rw [hex4Val, hexVal_hexDigitChar (Nat.mod_lt _ (by omega)),
     hexVal_hexDigitChar (Nat.mod_lt _ (by omega)),
     hexVal_hexDigitChar (Nat.mod_lt _ (by omega)),
     hexVal_hexDigitChar (Nat.mod_lt _ (by omega))]
  show some (n / 4096 % 16 * 4096 + n / 256 % 16 * 256 + n / 16 % 16 * 16 + n % 16) = some n
  exact congrArg some (by omega)

/-! ## Round-trip machinery: string escapes -/

theorem psb_close (rest : List Char) :
    parseStringBody ('"' :: rest) = some ([], rest) := by
  rw [parseStringBody, if_pos rfl]

theorem psb_twochar {e c' : Char} (he : escTable e = some c') (hne : ¬(e = 'u'))
    (tail : List Char) :
    parseStringBody ('\\' :: e :: tail) =
      (parseStringBody tail).bind (fun p => some (c' :: p.1, p.2)) := by
  rw [parseStringBody, if_neg (by decide), if_pos rfl, parseEscape, if_neg hne, he]
  rfl

theorem psb_u_bmp {a b c d : Char} {n : Nat} (hhex : hex4Val a b c d = some n)
    (hs1 : ¬(55296 ≤ n ∧ n < 56320)) (hs2 : ¬(56320 ≤ n ∧ n < 57344))
    (tail : List Char) :
    parseStringBody ('\\' :: 'u' :: a :: b :: c :: d :: tail) =
      (parseStringBody tail).bind (fun p => some (Char.ofNat n :: p.1, p.2)) := by
  rw [parseStringBody, if_neg (by decide), if_pos rfl, parseEscape, if_pos rfl,
    parseUnicode, hhex]
  simp only [Option.bind_eq_bind, Option.some_bind]
  rw [if_neg hs1, if_neg hs2]
  rfl

theorem psb_u_pair {a b c d a2 b2 c2 d2 : Char} {n m : Nat}
    (h1 : hex4Val a b c d = some n) (hn1 : 55296 ≤ n) (hn2 : n < 56320)
    (h2 : hex4Val a2 b2 c2 d2 = some m) (hm1 : 56320 ≤ m) (hm2 : m < 57344)
    (tail : List Char) :
    parseStringBody
        ('\\' :: 'u' :: a :: b :: c :: d :: '\\' :: 'u' :: a2 :: b2 :: c2 :: d2 :: tail) =
      (parseStringBody tail).bind
        (fun p => some (Char.ofNat ((n - 55296) * 1024 + (m - 56320) + 65536)
          :: p.1, p.2)) := by
  rw [parseStringBody, if_neg (by decide), if_pos rfl, parseEscape, if_pos rfl,
    parseUnicode, h1]
  simp only [Option.bind_eq_bind, Option.some_bind]
  rw [if_pos ⟨hn1, hn2⟩, parseLowSurrogate, if_pos ⟨rfl, rfl⟩, h2]
  simp only [Option.bind_eq_bind, Option.some_bind]
  rw [if_pos ⟨hm1, hm2⟩]
  rfl

theorem psb_plain {c : Char} (h1 : ¬(c = '"')) (h2 : ¬(c = '\\'))
    (h3 : ¬(c.toNat < 32)) (tail : List Char) :
    parseStringBody (c :: tail) =
      (parseStringBody tail).bind (fun p => some (c :: p.1, p.2)) := by
  rw [parseStringBody, if_neg h1, if_neg h2, if_neg h3]
  rfl

set_option maxHeartbeats 2000000 in
theorem parseStringBody_escape (l : List Char) (rest : List Char) :
    parseStringBody (escapeChars l ++ '"' :: rest) = some (l, rest) := by
  induction l with
  | nil => exact psb_close rest
  | cons c l' ih =>
    show parseStringBody ((escapeChar c ++ escapeChars l') ++ '"' :: rest) = _
    rw [List.append_assoc]
    unfold escapeChar
    split_ifs with h1 h2 h3 h4 h5 h6 h7 h8 h9 h10
    · subst h1
      have he : escTable '\\' = some '\\' := rfl
      rw [List.cons_append, List.cons_append, List.nil_append,
        psb_twochar he (by decide), ih]; rfl
    · subst h2
      have he : escTable '"' = some '"' := rfl
      rw [List.cons_append, List.cons_append, List.nil_append,
        psb_twochar he (by decide), ih]; rfl
    · subst h3
      have he : escTable 'b' = some (Char.ofNat 8) := rfl
      rw [List.cons_append, List.cons_append, List.nil_append,
        psb_twochar he (by decide), ih]; rfl
    · subst h4
      have he : escTable 'f' = some (Char.ofNat 12) := rfl
      rw [List.cons_append, List.cons_append, List.nil_append,
        psb_twochar he (by decide), ih]; rfl
    · subst h5
      have he : escTable 'n' = some '\n' := rfl
      rw [List.cons_append, List.cons_append, List.nil_append,
        psb_twochar he (by decide), ih]; rfl
    · subst h6
      have he : escTable 'r' = some (Char.ofNat 13) := rfl
      rw [List.cons_append, List.cons_append, List.nil_append,
        psb_twochar he (by decide), ih]; rfl
    · subst h7
      have he : escTable 't' = some '\t' := rfl
      rw [List.cons_append, List.cons_append, List.nil_append,
        psb_twochar he (by decide), ih]; rfl
    · simp only [hex4, List.cons_append, List.nil_append]
      have hx : hex4Val (hexDigitChar (c.toNat / 4096 % 16))
          (hexDigitChar (c.toNat / 256 % 16)) (hexDigitChar (c.toNat / 16 % 16))
          (hexDigitChar (c.toNat % 16)) = some c.toNat := hex4Val_hex4 (by omega)
      rw [psb_u_bmp hx (by omega) (by omega), ih, Char.ofNat_toNat]; rfl
    · rw [List.singleton_append, psb_plain h2 h1 h8, ih]; rfl
    · have hv := char_toNat_valid c
      simp only [hex4, List.cons_append, List.nil_append]
      have hx : hex4Val (hexDigitChar (c.toNat / 4096 % 16))
          (hexDigitChar (c.toNat / 256 % 16)) (hexDigitChar (c.toNat / 16 % 16))
          (hexDigitChar (c.toNat % 16)) = some c.toNat := hex4Val_hex4 h10
      rw [psb_u_bmp hx (by omega) (by omega), ih, Char.ofNat_toNat]; rfl
    · have hv := char_toNat_valid c
      simp only [hex4, List.cons_append, List.nil_append, List.append_assoc]
      have hx1 : hex4Val
          (hexDigitChar ((55296 + (c.toNat - 65536) / 1024) / 4096 % 16))
          (hexDigitChar ((55296 + (c.toNat - 65536) / 1024) / 256 % 16))
          (hexDigitChar ((55296 + (c.toNat - 65536) / 1024) / 16 % 16))
          (hexDigitChar ((55296 + (c.toNat - 65536) / 1024) % 16))
          = some (55296 + (c.toNat - 65536) / 1024) := hex4Val_hex4 (by omega)
      have hx2 : hex4Val
          (hexDigitChar ((56320 + (c.toNat - 65536) % 1024) / 4096 % 16))
          (hexDigitChar ((56320 + (c.toNat - 65536) % 1024) / 256 % 16))
          (hexDigitChar ((56320 + (c.toNat - 65536) % 1024) / 16 % 16))
          (hexDigitChar ((56320 + (c.toNat - 65536) % 1024) % 16))
          = some (56320 + (c.toNat - 65536) % 1024) := hex4Val_hex4 (by omega)
      rw [psb_u_pair hx1 (by omega) (by omega) hx2 (by omega) (by omega), ih]
      have harg : (55296 + (c.toNat - 65536) / 1024 - 55296) * 1024 +
          (56320 + (c.toNat - 65536) % 1024 - 56320) + 65536 = c.toNat := by omega
      rw [harg, Char.ofNat_toNat]; rfl

/-! ## Round-trip machinery: decimal numbers -/

theorem isDigitChar_ofNat {m : Nat} (h : m < 10) :
    isDigitChar (Char.ofNat (48 + m)) = true := by
  interval_cases m <;> decide

theorem digitVal_ofNat {m : Nat} (h : m < 10) :
    digitVal (Char.ofNat (48 + m)) = m := by
  rw [digitVal, toNat_ofNat_lt (by omega)]
  omega

theorem natToChars_lt {n : Nat} (h : n < 10) :
    natToChars n = [Char.ofNat (48 + n)] := by
  rw [natToChars, dif_pos h]

theorem natToChars_ge {n : Nat} (h : ¬(n < 10)) :
    natToChars n = natToChars (n / 10) ++ [Char.ofNat (48 + n % 10)] := by
  conv_lhs => rw [natToChars]
  rw [dif_neg h]

theorem natToChars_digits (n : Nat) : ∀ c ∈ natToChars n, isDigitChar c = true := by
  induction n using Nat.strong_induction_on with
  | _ n ih =>
    by_cases h : n < 10
    · rw [natToChars_lt h]
      intro c hc
      rw [List.mem_singleton] at hc
      subst hc
      exact isDigitChar_ofNat h
    · rw [natToChars_ge h]
      intro c hc
      rcases List.mem_append.mp hc with hc | hc
      · exact ih (n / 10) (Nat.div_lt_self (by omega) (by omega)) c hc
      · rw [List.mem_singleton] at hc
        subst hc
        exact isDigitChar_ofNat (Nat.mod_lt _ (by omega))

theorem natToChars_head (n : Nat) :
    ∃ c t, natToChars n = c :: t ∧ isDigitChar c = true := by
  induction n using Nat.strong_induction_on with
  | _ n ih =>
    by_cases h : n < 10
    · exact ⟨Char.ofNat (48 + n), [], natToChars_lt h, isDigitChar_ofNat h⟩
    · obtain ⟨c, t, hct, hd⟩ := ih (n / 10) (Nat.div_lt_self (by omega) (by omega))
      exact ⟨c, t ++ [Char.ofNat (48 + n % 10)],
        by rw [natToChars_ge h, hct, List.cons_append], hd⟩

theorem parseDigitsAux_stop {l : List Char} (h : headIsDigit l = false) (acc : Nat) :
    parseDigitsAux l acc = (acc, l) := by
  cases l with
  | nil => rfl
  | cons c t =>
    rw [headIsDigit] at h
    rw [parseDigitsAux, if_neg (by simp [h])]

theorem parseDigitsAux_append (ds : List Char) :
    ∀ (acc : Nat) (rest : List Char), (∀ c ∈ ds, isDigitChar c = true) →
      headIsDigit rest = false →
      parseDigitsAux (ds ++ rest) acc =
        (ds.foldl (fun a c => a * 10 + digitVal c) acc, rest) := by
  induction ds with
  | nil => intro acc rest _ hrest; exact parseDigitsAux_stop hrest acc
  | cons c t ih =>
    intro acc rest hds hrest
    rw [List.cons_append, parseDigitsAux,
      if_pos (by rw [hds c (List.mem_cons_self c t)]),
      ih (acc * 10 + digitVal c) rest (fun d hd => hds d (List.mem_cons_of_mem c hd)) hrest,
      List.foldl_cons]

theorem natToChars_foldl (n : Nat) :
    ∀ acc : Nat, (natToChars n).foldl (fun a c => a * 10 + digitVal c) acc =
      acc * 10 ^ (natToChars n).length + n := by
  induction n using Nat.strong_induction_on with
  | _ n ih =>
    intro acc
    by_cases h : n < 10
    · rw [natToChars_lt h]
      simp [digitVal_ofNat h]
    · rw [natToChars_ge h, List.foldl_append, List.foldl_cons, List.foldl_nil,
        ih (n / 10) (Nat.div_lt_self (by omega) (by omega)) acc,
        digitVal_ofNat (Nat.mod_lt _ (by omega)), List.length_append,
        List.length_singleton]
      calc (acc * 10 ^ (natToChars (n / 10)).length + n / 10) * 10 + n % 10
          = acc * (10 ^ (natToChars (n / 10)).length * 10) +
              (n / 10 * 10 + n % 10) := by ring
        _ = acc * 10 ^ ((natToChars (n / 10)).length + 1) + n := by
            rw [pow_succ]
            congr 1
            omega

theorem parseNat_natToChars (n : Nat) {rest : List Char}
    (hrest : headIsDigit rest = false) :
    parseNat (natToChars n ++ rest) = some (n, rest) := by
  obtain ⟨c, t, hct, hd⟩ := natToChars_head n
  have hds : ∀ d ∈ t, isDigitChar d = true := by
    intro d hdm
    exact natToChars_digits n d (by rw [hct]; exact List.mem_cons_of_mem c hdm)
  rw [hct, List.cons_append, parseNat, if_pos (by rw [hd]),
    parseDigitsAux_append t (digitVal c) rest hds hrest]
  have h0 := natToChars_foldl n 0
  rw [hct, List.foldl_cons] at h0
  simp only [Nat.zero_mul, Nat.zero_add] at h0
  rw [h0]

/-! ## Round-trip machinery: parser step lemmas -/

theorem digit_head_facts {c : Char} (h : isDigitChar c = true) :
    isWsChar c = false ∧ ¬(c = ']') ∧ ¬(c = '\x7d') := by
  refine ⟨?_, fun hc => absurd (hc ▸ h) (by decide),
    fun hc => absurd (hc ▸ h) (by decide)⟩
  have h1 : ¬(c = ' ') := fun hc => absurd (hc ▸ h) (by decide)
  have h2 : ¬(c = '\t') := fun hc => absurd (hc ▸ h) (by decide)
  have h3 : ¬(c = '\n') := fun hc => absurd (hc ▸ h) (by decide)
  have h4 : ¬(c = Char.ofNat 13) := fun hc => absurd (hc ▸ h) (by decide)
  simp [isWsChar, h1, h2, h3, h4]

theorem pv_null (fuel : Nat) (rest : List Char) :
    parseValue (fuel + 1) ('n' :: 'u' :: 'l' :: 'l' :: rest) = some (.null, rest) := rfl

theorem pv_true (fuel : Nat) (rest : List Char) :
    parseValue (fuel + 1) ('t' :: 'r' :: 'u' :: 'e' :: rest) =
      some (.bool true, rest) := rfl

theorem pv_false (fuel : Nat) (rest : List Char) :
    parseValue (fuel + 1) ('f' :: 'a' :: 'l' :: 's' :: 'e' :: rest) =
      some (.bool false, rest) := rfl

theorem pv_quote (fuel : Nat) (rest : List Char) :
    parseValue (fuel + 1) ('"' :: rest) =
      (parseStringBody rest).map (fun p => (.str ⟨p.1⟩, p.2)) := rfl

theorem pv_lbrack (fuel : Nat) (r : List Char) :
    parseValue (fuel + 1) ('[' :: r) =
      (match skipWs r with
       | [] => none
       | c2 :: r2 =>
          if c2 = ']' then some (.arr [], r2)
          else (parseItems fuel r).map (fun p => (.arr p.1, p.2))) := rfl

theorem pv_lbrace (fuel : Nat) (r : List Char) :
    parseValue (fuel + 1) ('\x7b' :: r) =
      (match skipWs r with
       | [] => none
       | c2 :: r2 =>
          if c2 = '\x7d' then some (.obj [], r2)
          else (parseFields fuel r).map (fun p => (.obj p.1, p.2))) := rfl

theorem pv_minus (fuel : Nat) (r : List Char) :
    parseValue (fuel + 1) ('-' :: r) =
      (parseNat r).map (fun p => (.num (-(p.1 : Int)), p.2)) := rfl

theorem pv_digit {c : Char} (hd : isDigitChar c = true) (fuel : Nat) (r : List Char) :
    parseValue (fuel + 1) (c :: r) =
      (parseNat (c :: r)).map (fun p => (.num (p.1 : Int), p.2)) := by
  rw [parseValue, skipWs_cons_of_not_ws (digit_head_facts hd).1]
  have h1 : ¬(c = 'n') := fun hc => absurd (hc ▸ hd) (by decide)
  have h2 : ¬(c = 't') := fun hc => absurd (hc ▸ hd) (by decide)
  have h3 : ¬(c = 'f') := fun hc => absurd (hc ▸ hd) (by decide)
  have h4 : ¬(c = '"') := fun hc => absurd (hc ▸ hd) (by decide)
  have h5 : ¬(c = '[') := fun hc => absurd (hc ▸ hd) (by decide)
  have h6 : ¬(c = '\x7b') := fun hc => absurd (hc ▸ hd) (by decide)
  have h7 : ¬(c = '-') := fun hc => absurd (hc ▸ hd) (by decide)
  simp only [if_neg h1, if_neg h2, if_neg h3, if_neg h4, if_neg h5, if_neg h6,
    if_neg h7, if_pos hd]

theorem pv_ws {ws : List Char} (h : ∀ c ∈ ws, isWsChar c = true)
    (fuel : Nat) (l : List Char) :
    parseValue (fuel + 1) (ws ++ l) = parseValue (fuel + 1) l := by
  rw [parseValue, parseValue, skipWs_append_ws h]

theorem pitems_succ (fuel : Nat) (cs : List Char) :
    parseItems (fuel + 1) cs =
      (parseValue fuel cs).bind (fun vp =>
        match skipWs vp.2 with
        | [] => none
        | c2 :: r2 =>
          if c2 = ',' then
            (parseItems fuel r2).bind (fun q => some (vp.1 :: q.1, q.2))
          else if c2 = ']' then some ([vp.1], r2)
          else none) := rfl

theorem pfields_succ (fuel : Nat) (cs : List Char) :
    parseFields (fuel + 1) cs =
      (match skipWs cs with
       | [] => none
       | c :: r =>
        if c = '"' then
          (parseStringBody r).bind (fun kp =>
            match skipWs kp.2 with
            | [] => none
            | c2 :: r2 =>
              if c2 = ':' then
                (parseValue fuel r2).bind (fun vp =>
                  match skipWs vp.2 with
                  | [] => none
                  | c3 :: r4 =>
                    if c3 = ',' then
                      (parseFields fuel r4).bind (fun q =>
                        some ((⟨kp.1⟩, vp.1) :: q.1, q.2))
                    else if c3 = '\x7d' then some ([(⟨kp.1⟩, vp.1)], r4)
                    else none)
              else none)
        else none) := rfl

/-! ## Round-trip machinery: serializer equations -/

theorem dv_null (ind : Nat) : dumpsVal ind .null = ['n', 'u', 'l', 'l'] := by
  rw [dumpsVal]

theorem dv_true (ind : Nat) : dumpsVal ind (.bool true) = ['t', 'r', 'u', 'e'] := by
  rw [dumpsVal]

theorem dv_false (ind : Nat) :
    dumpsVal ind (.bool false) = ['f', 'a', 'l', 's', 'e'] := by
  rw [dumpsVal]

theorem dv_num (ind : Nat) (i : Int) : dumpsVal ind (.num i) = intToChars i := by
  rw [dumpsVal]

theorem dv_str (ind : Nat) (s : String) :
    dumpsVal ind (.str s) = '"' :: (escapeChars s.data ++ ['"']) := by
  rw [dumpsVal]

theorem dv_arr_nil (ind : Nat) : dumpsVal ind (.arr []) = ['[', ']'] := by
  rw [dumpsVal]

theorem dv_arr_cons (ind : Nat) (x : Json) (xs : List Json) :
    dumpsVal ind (.arr (x :: xs)) =
      '[' :: '\n' :: (dumpsItems (ind + 2) x xs ++ '\n' :: (indentChars ind ++ [']'])) := by
  rw [dumpsVal]

theorem dv_obj_nil (ind : Nat) : dumpsVal ind (.obj []) = ['\x7b', '\x7d'] := by
  rw [dumpsVal]

theorem dv_obj_cons (ind : Nat) (k : String) (v : Json) (kvs : List (String × Json)) :
    dumpsVal ind (.obj ((k, v) :: kvs)) =
      '\x7b' :: '\n' ::
        (dumpsFields (ind + 2) k v kvs ++ '\n' :: (indentChars ind ++ ['\x7d'])) := by
  rw [dumpsVal]

theorem di_nil (ind : Nat) (x : Json) :
    dumpsItems ind x [] = indentChars ind ++ dumpsVal ind x := by
  rw [dumpsItems]
  simp

theorem di_cons (ind : Nat) (x y : Json) (ys : List Json) :
    dumpsItems ind x (y :: ys) =
      indentChars ind ++ (dumpsVal ind x ++ ',' :: '\n' :: dumpsItems ind y ys) := by
  rw [dumpsItems]

theorem df_nil (ind : Nat) (k : String) (v : Json) :
    dumpsFields ind k v [] =
      indentChars ind ++
        ('"' :: (escapeChars k.data ++ '"' :: ':' :: ' ' :: dumpsVal ind v)) := by
  rw [dumpsFields]
  simp

theorem df_cons (ind : Nat) (k : String) (v : Json) (k2 : String) (v2 : Json)
    (ps : List (String × Json)) :
    dumpsFields ind k v ((k2, v2) :: ps) =
      indentChars ind ++
        ('"' :: (escapeChars k.data ++ '"' :: ':' :: ' ' :: dumpsVal ind v) ++
          ',' :: '\n' :: dumpsFields ind k2 v2 ps) := by
  rw [dumpsFields]

theorem dumpsVal_head (ind : Nat) (j : Json) :
    ∃ c t, dumpsVal ind j = c :: t ∧ isWsChar c = false ∧ ¬(c = ']') ∧ ¬(c = '\x7d') := by
  cases j with
  | null => exact ⟨'n', _, dv_null ind, by decide, by decide, by decide⟩
  | bool b =>
    cases b with
    | true => exact ⟨'t', _, dv_true ind, by decide, by decide, by decide⟩
    | false => exact ⟨'f', _, dv_false ind, by decide, by decide, by decide⟩
  | num i =>
    by_cases hi : i < 0
    · exact ⟨'-', _, by rw [dv_num, intToChars, if_pos hi], by decide, by decide, by decide⟩
    · obtain ⟨c, t, hct, hd⟩ := natToChars_head i.natAbs
      obtain ⟨hw, hb1, hb2⟩ := digit_head_facts hd
      exact ⟨c, t, by rw [dv_num, intToChars, if_neg hi, hct], hw, hb1, hb2⟩
  | str s => exact ⟨'"', _, dv_str ind s, by decide, by decide, by decide⟩
  | arr l =>
    cases l with
    | nil => exact ⟨'[', _, dv_arr_nil ind, by decide, by decide, by decide⟩
    | cons x xs => exact ⟨'[', _, dv_arr_cons ind x xs, by decide, by decide, by decide⟩
  | obj l =>
    cases l with
    | nil => exact ⟨'\x7b', _, dv_obj_nil ind, by decide, by decide, by decide⟩
    | cons kv kvs =>
      obtain ⟨k, v⟩ := kv
      exact ⟨'\x7b', _, dv_obj_cons ind k v kvs, by decide, by decide, by decide⟩

/-! ## Round-trip machinery: fuel bounds -/

theorem needItems_pos (x : Json) (xs : List Json) : 1 ≤ needItems x xs := by
  rw [needItems.eq_def]; omega

theorem needFields_pos (v : Json) (kvs : List (String × Json)) : 1 ≤ needFields v kvs := by
  rw [needFields.eq_def]; omega

theorem needVal_pos (j : Json) : 1 ≤ needVal j := by
  cases j with
  | null => rw [needVal]
  | bool b => rw [needVal]
  | num i => rw [needVal]
  | str s => rw [needVal]
  | arr l =>
    cases l with
    | nil => rw [needVal]
    | cons x xs => rw [needVal]; omega
  | obj l =>
    cases l with
    | nil => rw [needVal]
    | cons kv kvs =>
      obtain ⟨k, v⟩ := kv
      rw [needVal]; omega

theorem ni_cons (x y : Json) (ys : List Json) :
    needItems x (y :: ys) = 1 + needVal x + needItems y ys := by
  rw [needItems.eq_def]

theorem nf_cons (v : Json) (k2 : String) (v2 : Json) (ps : List (String × Json)) :
    needFields v ((k2, v2) :: ps) = 1 + needVal v + needFields v2 ps := by
  rw [needFields.eq_def]

theorem dumpsItems_skipWs (ind : Nat) (x : Json) (xs : List Json) (tail : List Char) :
    ∃ ch t2, skipWs (dumpsItems ind x xs ++ tail) = ch :: t2 ∧
      isWsChar ch = false ∧ ¬(ch = ']') ∧ ¬(ch = '\x7d') := by
  obtain ⟨ch, ct, hct, hw, h1, h2⟩ := dumpsVal_head ind x
  cases xs with
  | nil =>
    refine ⟨ch, ct ++ tail, ?_, hw, h1, h2⟩
    rw [di_nil, List.append_assoc, skipWs_append_ws (indentChars_ws ind), hct,
      List.cons_append, skipWs_cons_of_not_ws hw]
  | cons y ys =>
    refine ⟨ch, ct ++ ((',' :: '\n' :: dumpsItems ind y ys) ++ tail), ?_, hw, h1, h2⟩
    rw [di_cons, List.append_assoc, skipWs_append_ws (indentChars_ws ind),
      List.append_assoc, hct, List.cons_append, skipWs_cons_of_not_ws hw]

theorem dumpsFields_head_quote (ind : Nat) (k : String) (v : Json)
    (kvs : List (String × Json)) :
    ∃ t2, dumpsFields ind k v kvs = indentChars ind ++ '"' :: t2 := by
  cases kvs with
  | nil => exact ⟨_, df_nil ind k v⟩
  | cons kv ps =>
    obtain ⟨k2, v2⟩ := kv
    rw [df_cons]
    exact ⟨_, by rw [List.cons_append]⟩

theorem parse_dumps (fuel : Nat) :
    (∀ (j : Json) (ind : Nat) (rest : List Char), needVal j ≤ fuel →
      headIsDigit rest = false →
      parseValue fuel (dumpsVal ind j ++ rest) = some (j, rest))
    ∧ (∀ (ws : List Char) (x : Json) (xs : List Json) (ind m : Nat) (rest : List Char),
        (∀ c ∈ ws, isWsChar c = true) → needItems x xs ≤ fuel →
        parseItems fuel
          (ws ++ (dumpsItems ind x xs ++ '\n' :: (indentChars m ++ ']' :: rest)))
          = some (x :: xs, rest))
    ∧ (∀ (ws : List Char) (k : String) (v : Json) (kvs : List (String × Json))
        (ind m : Nat) (rest : List Char),
        (∀ c ∈ ws, isWsChar c = true) → needFields v kvs ≤ fuel →
        parseFields fuel
          (ws ++ (dumpsFields ind k v kvs ++ '\n' :: (indentChars m ++ '\x7d' :: rest)))
          = some ((k, v) :: kvs, rest)) := by
  induction fuel with
  | zero =>
    refine ⟨fun j ind rest hneed _ => absurd hneed ?_,
      fun ws x xs ind m rest _ hneed => absurd hneed ?_,
      fun ws k v kvs ind m rest _ hneed => absurd hneed ?_⟩
    · have := needVal_pos j; omega
    · have := needItems_pos x xs; omega
    · have := needFields_pos v kvs; omega
  | succ f ih =>
    obtain ⟨ihV, ihI, ihF⟩ := ih
    refine ⟨?_, ?_, ?_⟩
    · -- one JSON value
      intro j ind rest hneed hrest
      cases j with
      | null =>
        rw [dv_null]
        simp only [List.cons_append, List.nil_append]
        exact pv_null f rest
      | bool b =>
        cases b with
        | true =>
          rw [dv_true]
          simp only [List.cons_append, List.nil_append]
          exact pv_true f rest
        | false =>
          rw [dv_false]
          simp only [List.cons_append, List.nil_append]
          exact pv_false f rest
      | num i =>
        rw [dv_num, intToChars]
        by_cases hi : i < 0
        · rw [if_pos hi, List.cons_append, pv_minus, parseNat_natToChars _ hrest]
          simp only [Option.map_some']
          have hval : -((i.natAbs : Nat) : Int) = i := by omega
          rw [hval]
        · obtain ⟨c, t, hct, hd⟩ := natToChars_head i.natAbs
          rw [if_neg hi, hct, List.cons_append, pv_digit hd, ← List.cons_append, ← hct,
            parseNat_natToChars _ hrest]
          simp only [Option.map_some']
          have hval : ((i.natAbs : Nat) : Int) = i := by omega
          rw [hval]
      | str s =>
        rw [dv_str]
        simp only [List.cons_append, List.append_assoc, List.singleton_append, List.nil_append]
        rw [pv_quote, parseStringBody_escape]
        simp only [Option.map_some']
      | arr l =>
        cases l with
        | nil =>
          rw [dv_arr_nil]
          simp only [List.cons_append, List.nil_append]
          rw [pv_lbrack]
          rfl
        | cons x xs =>
          rw [needVal] at hneed
          rw [dv_arr_cons]
          simp only [List.cons_append, List.append_assoc, List.singleton_append, List.nil_append]
          rw [pv_lbrack]
          obtain ⟨ch, t2, hskip, hw, hne, _⟩ :=
            dumpsItems_skipWs (ind + 2) x xs ('\n' :: (indentChars ind ++ ']' :: rest))
          rw [skipWs_cons_of_ws (by decide), hskip]
          show (if ch = ']' then some (Json.arr [], t2)
            else (parseItems f ('\n' :: (dumpsItems (ind + 2) x xs ++
              '\n' :: (indentChars ind ++ ']' :: rest)))).map
                (fun p => (Json.arr p.1, p.2))) = _
          rw [if_neg hne,
            show ('\n' :: (dumpsItems (ind + 2) x xs ++
              '\n' :: (indentChars ind ++ ']' :: rest)))
              = ['\n'] ++ (dumpsItems (ind + 2) x xs ++
                '\n' :: (indentChars ind ++ ']' :: rest)) from rfl,
            ihI ['\n'] x xs (ind + 2) ind rest
              (by intro c hc; rw [List.mem_singleton] at hc; subst hc; decide)
              (by omega)]
          simp only [Option.map_some']
      | obj l =>
        cases l with
        | nil =>
          rw [dv_obj_nil]
          simp only [List.cons_append, List.nil_append]
          rw [pv_lbrace]
          rfl
        | cons kv kvs =>
          obtain ⟨k, v⟩ := kv
          rw [needVal] at hneed
          rw [dv_obj_cons]
          simp only [List.cons_append, List.append_assoc, List.singleton_append, List.nil_append]
          rw [pv_lbrace]
          obtain ⟨t2, hq⟩ := dumpsFields_head_quote (ind + 2) k v kvs
          have hskip : skipWs (dumpsFields (ind + 2) k v kvs ++
              '\n' :: (indentChars ind ++ '\x7d' :: rest))
              = '"' :: (t2 ++ '\n' :: (indentChars ind ++ '\x7d' :: rest)) := by
            rw [hq, List.append_assoc, skipWs_append_ws (indentChars_ws (ind + 2)),
              List.cons_append, skipWs_cons_of_not_ws (by decide)]
          rw [skipWs_cons_of_ws (by decide), hskip]
          show (if ('"' : Char) = '\x7d' then some (Json.obj [], t2 ++ '\n' :: (indentChars ind ++ '\x7d' :: rest))
            else (parseFields f ('\n' :: (dumpsFields (ind + 2) k v kvs ++
              '\n' :: (indentChars ind ++ '\x7d' :: rest)))).map
                (fun p => (Json.obj p.1, p.2))) = _
          rw [if_neg (by decide),
            show ('\n' :: (dumpsFields (ind + 2) k v kvs ++
              '\n' :: (indentChars ind ++ '\x7d' :: rest)))
              = ['\n'] ++ (dumpsFields (ind + 2) k v kvs ++
                '\n' :: (indentChars ind ++ '\x7d' :: rest)) from rfl,
            ihF ['\n'] k v kvs (ind + 2) ind rest
              (by intro c hc; rw [List.mem_singleton] at hc; subst hc; decide)
              (by omega)]
          simp only [Option.map_some']
    · -- items of a non-empty array
      intro ws x xs ind m rest hws hneed
      have hnx := needVal_pos x
      have hws2 : ∀ c ∈ ws ++ indentChars ind, isWsChar c = true := by
        intro c hc
        rcases List.mem_append.mp hc with h | h
        exacts [hws c h, indentChars_ws ind c h]
      rw [pitems_succ]
      cases xs with
      | nil =>
        have hxf : needVal x ≤ f := by rw [needItems.eq_def] at hneed; omega
        obtain ⟨f', rfl⟩ : ∃ f', f = f' + 1 := ⟨f - 1, by omega⟩
        rw [di_nil]
        rw [show ws ++ ((indentChars ind ++ dumpsVal ind x) ++
            '\n' :: (indentChars m ++ ']' :: rest))
            = (ws ++ indentChars ind) ++ (dumpsVal ind x ++
              '\n' :: (indentChars m ++ ']' :: rest)) from by simp]
        rw [pv_ws hws2, ihV x ind ('\n' :: (indentChars m ++ ']' :: rest)) hxf rfl]
        simp only [Option.some_bind]
        rw [show skipWs ('\n' :: (indentChars m ++ ']' :: rest)) = ']' :: rest from by
          rw [skipWs_cons_of_ws (by decide), skipWs_append_ws (indentChars_ws m),
            skipWs_cons_of_not_ws (by decide)]]
        rfl
      | cons y ys =>
        have hxf : needVal x ≤ f := by rw [ni_cons] at hneed; omega
        have hyf : needItems y ys ≤ f := by rw [ni_cons] at hneed; omega
        obtain ⟨f', rfl⟩ : ∃ f', f = f' + 1 := ⟨f - 1, by omega⟩
        rw [di_cons]
        rw [show ws ++ ((indentChars ind ++ (dumpsVal ind x ++
              ',' :: '\n' :: dumpsItems ind y ys)) ++
            '\n' :: (indentChars m ++ ']' :: rest))
            = (ws ++ indentChars ind) ++ (dumpsVal ind x ++
              (',' :: '\n' :: (dumpsItems ind y ys ++
                '\n' :: (indentChars m ++ ']' :: rest)))) from by simp]
        rw [pv_ws hws2, ihV x ind (',' :: '\n' :: (dumpsItems ind y ys ++
          '\n' :: (indentChars m ++ ']' :: rest))) hxf rfl]
        simp only [Option.some_bind]
        rw [show skipWs (',' :: '\n' :: (dumpsItems ind y ys ++
            '\n' :: (indentChars m ++ ']' :: rest)))
            = ',' :: ('\n' :: (dumpsItems ind y ys ++
              '\n' :: (indentChars m ++ ']' :: rest))) from
          skipWs_cons_of_not_ws (by decide) _]
        show (parseItems (f' + 1) ('\n' :: (dumpsItems ind y ys ++
            '\n' :: (indentChars m ++ ']' :: rest)))).bind
            (fun q => some (x :: q.1, q.2)) = _
        rw [show ('\n' :: (dumpsItems ind y ys ++
            '\n' :: (indentChars m ++ ']' :: rest)))
            = ['\n'] ++ (dumpsItems ind y ys ++
              '\n' :: (indentChars m ++ ']' :: rest)) from rfl]
        rw [ihI ['\n'] y ys ind m rest
          (by intro c hc; rw [List.mem_singleton] at hc; subst hc; decide) hyf]
        rfl
    · -- fields of a non-empty object
      intro ws k v kvs ind m rest hws hneed
      have hnv := needVal_pos v
      have hws2 : ∀ c ∈ ws ++ indentChars ind, isWsChar c = true := by
        intro c hc
        rcases List.mem_append.mp hc with h | h
        exacts [hws c h, indentChars_ws ind c h]
      rw [pfields_succ]
      cases kvs with
      | nil =>
        have hvf : needVal v ≤ f := by rw [needFields.eq_def] at hneed; omega
        obtain ⟨f', rfl⟩ : ∃ f', f = f' + 1 := ⟨f - 1, by omega⟩
        rw [df_nil]
        rw [show ws ++ ((indentChars ind ++
              ('"' :: (escapeChars k.data ++ '"' :: ':' :: ' ' :: dumpsVal ind v))) ++
            '\n' :: (indentChars m ++ '\x7d' :: rest))
            = (ws ++ indentChars ind) ++ ('"' :: (escapeChars k.data ++ '"' ::
              (':' :: (' ' :: (dumpsVal ind v ++
                '\n' :: (indentChars m ++ '\x7d' :: rest)))))) from by simp]
        rw [skipWs_append_ws hws2, skipWs_cons_of_not_ws (by decide)]
        show (parseStringBody (escapeChars k.data ++ '"' ::
            (':' :: (' ' :: (dumpsVal ind v ++
              '\n' :: (indentChars m ++ '\x7d' :: rest)))))).bind (fun kp =>
          match skipWs kp.2 with
          | [] => none
          | c2 :: r2 =>
            if c2 = ':' then
              (parseValue (f' + 1) r2).bind (fun vp =>
                match skipWs vp.2 with
                | [] => none
                | c3 :: r4 =>
                  if c3 = ',' then
                    (parseFields (f' + 1) r4).bind (fun q =>
                      some ((⟨kp.1⟩, vp.1) :: q.1, q.2))
                  else if c3 = '\x7d' then some ([(⟨kp.1⟩, vp.1)], r4)
                  else none)
            else none) = _
        rw [parseStringBody_escape]
        simp only [Option.some_bind]
        rw [show skipWs (':' :: (' ' :: (dumpsVal ind v ++
            '\n' :: (indentChars m ++ '\x7d' :: rest))))
            = ':' :: (' ' :: (dumpsVal ind v ++
              '\n' :: (indentChars m ++ '\x7d' :: rest))) from
          skipWs_cons_of_not_ws (by decide) _]
        show (parseValue (f' + 1) (' ' :: (dumpsVal ind v ++
            '\n' :: (indentChars m ++ '\x7d' :: rest)))).bind (fun vp =>
          match skipWs vp.2 with
          | [] => none
          | c3 :: r4 =>
            if c3 = ',' then
              (parseFields (f' + 1) r4).bind (fun q =>
                some ((⟨(k.data : List Char)⟩, vp.1) :: q.1, q.2))
            else if c3 = '\x7d' then some ([(⟨(k.data : List Char)⟩, vp.1)], r4)
            else none) = _
        rw [show (' ' :: (dumpsVal ind v ++
            '\n' :: (indentChars m ++ '\x7d' :: rest)))
            = [' '] ++ (dumpsVal ind v ++
              '\n' :: (indentChars m ++ '\x7d' :: rest)) from rfl]
        rw [pv_ws (by intro c hc; rw [List.mem_singleton] at hc; subst hc; decide),
          ihV v ind ('\n' :: (indentChars m ++ '\x7d' :: rest)) hvf rfl]
        simp only [Option.some_bind]
        rw [show skipWs ('\n' :: (indentChars m ++ '\x7d' :: rest))
            = '\x7d' :: rest from by
          rw [skipWs_cons_of_ws (by decide), skipWs_append_ws (indentChars_ws m),
            skipWs_cons_of_not_ws (by decide)]]
        rfl
      | cons kv2 ps =>
        obtain ⟨k2, v2⟩ := kv2
        have hvf : needVal v ≤ f := by rw [nf_cons] at hneed; omega
        have hpf : needFields v2 ps ≤ f := by rw [nf_cons] at hneed; omega
        obtain ⟨f', rfl⟩ : ∃ f', f = f' + 1 := ⟨f - 1, by omega⟩
        rw [df_cons]
        rw [show ws ++ ((indentChars ind ++
              ('"' :: (escapeChars k.data ++ '"' :: ':' :: ' ' :: dumpsVal ind v) ++
                ',' :: '\n' :: dumpsFields ind k2 v2 ps)) ++
            '\n' :: (indentChars m ++ '\x7d' :: rest))
            = (ws ++ indentChars ind) ++ ('"' :: (escapeChars k.data ++ '"' ::
              (':' :: (' ' :: (dumpsVal ind v ++
                (',' :: ('\n' :: (dumpsFields ind k2 v2 ps ++
                  '\n' :: (indentChars m ++ '\x7d' :: rest))))))))) from by simp]
        rw [skipWs_append_ws hws2, skipWs_cons_of_not_ws (by decide)]
        show (parseStringBody (escapeChars k.data ++ '"' ::
            (':' :: (' ' :: (dumpsVal ind v ++
              (',' :: ('\n' :: (dumpsFields ind k2 v2 ps ++
                '\n' :: (indentChars m ++ '\x7d' :: rest))))))))).bind (fun kp =>
          match skipWs kp.2 with
          | [] => none
          | c2 :: r2 =>
            if c2 = ':' then
              (parseValue (f' + 1) r2).bind (fun vp =>
                match skipWs vp.2 with
                | [] => none
                | c3 :: r4 =>
                  if c3 = ',' then
                    (parseFields (f' + 1) r4).bind (fun q =>
                      some ((⟨kp.1⟩, vp.1) :: q.1, q.2))
                  else if c3 = '\x7d' then some ([(⟨kp.1⟩, vp.1)], r4)
                  else none)
            else none) = _
        rw [parseStringBody_escape]
        simp only [Option.some_bind]
        rw [show skipWs (':' :: (' ' :: (dumpsVal ind v ++
            (',' :: ('\n' :: (dumpsFields ind k2 v2 ps ++
              '\n' :: (indentChars m ++ '\x7d' :: rest)))))))
            = ':' :: (' ' :: (dumpsVal ind v ++
              (',' :: ('\n' :: (dumpsFields ind k2 v2 ps ++
                '\n' :: (indentChars m ++ '\x7d' :: rest)))))) from
          skipWs_cons_of_not_ws (by decide) _]
        show (parseValue (f' + 1) (' ' :: (dumpsVal ind v ++
            (',' :: ('\n' :: (dumpsFields ind k2 v2 ps ++
              '\n' :: (indentChars m ++ '\x7d' :: rest))))))).bind (fun vp =>
          match skipWs vp.2 with
          | [] => none
          | c3 :: r4 =>
            if c3 = ',' then
              (parseFields (f' + 1) r4).bind (fun q =>
                some ((⟨(k.data : List Char)⟩, vp.1) :: q.1, q.2))
            else if c3 = '\x7d' then some ([(⟨(k.data : List Char)⟩, vp.1)], r4)
            else none) = _
        rw [show (' ' :: (dumpsVal ind v ++
            (',' :: ('\n' :: (dumpsFields ind k2 v2 ps ++
              '\n' :: (indentChars m ++ '\x7d' :: rest))))))
            = [' '] ++ (dumpsVal ind v ++
              (',' :: ('\n' :: (dumpsFields ind k2 v2 ps ++
                '\n' :: (indentChars m ++ '\x7d' :: rest))))) from rfl]
        rw [pv_ws (by intro c hc; rw [List.mem_singleton] at hc; subst hc; decide),
          ihV v ind (',' :: ('\n' :: (dumpsFields ind k2 v2 ps ++
            '\n' :: (indentChars m ++ '\x7d' :: rest)))) hvf rfl]
        simp only [Option.some_bind]
        rw [show skipWs (',' :: ('\n' :: (dumpsFields ind k2 v2 ps ++
            '\n' :: (indentChars m ++ '\x7d' :: rest))))
            = ',' :: ('\n' :: (dumpsFields ind k2 v2 ps ++
              '\n' :: (indentChars m ++ '\x7d' :: rest))) from
          skipWs_cons_of_not_ws (by decide) _]
        show (parseFields (f' + 1) ('\n' :: (dumpsFields ind k2 v2 ps ++
            '\n' :: (indentChars m ++ '\x7d' :: rest)))).bind (fun q =>
          some ((⟨(k.data : List Char)⟩, v) :: q.1, q.2)) = _
        rw [show ('\n' :: (dumpsFields ind k2 v2 ps ++
            '\n' :: (indentChars m ++ '\x7d' :: rest)))
            = ['\n'] ++ (dumpsFields ind k2 v2 ps ++
              '\n' :: (indentChars m ++ '\x7d' :: rest)) from rfl]
        rw [ihF ['\n'] k2 v2 ps ind m rest
          (by intro c hc; rw [List.mem_singleton] at hc; subst hc; decide) hpf]
        rfl

theorem ni_nil (x : Json) : needItems x [] = 1 + needVal x := by
  rw [needItems.eq_def]
  rfl

theorem nf_nil (v : Json) : needFields v [] = 1 + needVal v := by
  rw [needFields.eq_def]
  rfl

theorem need_le_length (n : Nat) :
    (∀ (j : Json) (ind : Nat), sizeOf j ≤ n → needVal j ≤ (dumpsVal ind j).length)
    ∧ (∀ (x : Json) (xs : List Json) (ind : Nat), sizeOf x + sizeOf xs ≤ n →
        1 ≤ ind → needItems x xs ≤ (dumpsItems ind x xs).length)
    ∧ (∀ (k : String) (v : Json) (kvs : List (String × Json)) (ind : Nat),
        sizeOf v + sizeOf kvs ≤ n → needFields v kvs ≤ (dumpsFields ind k v kvs).length) := by
  induction n using Nat.strong_induction_on with
  | _ n ih =>
    refine ⟨?_, ?_, ?_⟩
    · intro j ind hsz
      cases j with
      | null => rw [needVal, dv_null]; simp
      | bool b => cases b with
        | true => rw [needVal, dv_true]; simp
        | false => rw [needVal, dv_false]; simp
      | num i =>
        rw [needVal, dv_num, intToChars]
        by_cases hi : i < 0
        · rw [if_pos hi]; simp
        · rw [if_neg hi]
          obtain ⟨c, t, hct, _⟩ := natToChars_head i.natAbs
          rw [hct]; simp
      | str s => rw [needVal, dv_str]; simp
      | arr l =>
        cases l with
        | nil => rw [needVal, dv_arr_nil]; simp
        | cons x xs =>
          have hsz' : sizeOf x + sizeOf xs < n := by simp at hsz; omega
          have hI := (ih _ hsz').2.1 x xs (ind + 2) (le_refl _) (by omega)
          rw [needVal, dv_arr_cons]
          simp only [List.length_cons, List.length_append, indentChars,
            List.length_replicate]
          omega
      | obj l =>
        cases l with
        | nil => rw [needVal, dv_obj_nil]; simp
        | cons kv kvs =>
          obtain ⟨k, v⟩ := kv
          have hsz' : sizeOf v + sizeOf kvs < n := by simp at hsz; omega
          have hF := (ih _ hsz').2.2 k v kvs (ind + 2) (le_refl _)
          rw [needVal, dv_obj_cons]
          simp only [List.length_cons, List.length_append, indentChars,
            List.length_replicate]
          omega
    · intro x xs ind hsz hind
      cases xs with
      | nil =>
        have hsx : sizeOf x < n := by simp at hsz; omega
        have hA := (ih _ hsx).1 x ind
        rw [ni_nil, di_nil]
        simp only [List.length_append, indentChars, List.length_replicate]
        have := hA (le_refl _)
        omega
      | cons y ys =>
        have hsx : sizeOf x < n := by simp at hsz; omega
        have hsy : sizeOf y + sizeOf ys < n := by simp at hsz; omega
        have hA := (ih _ hsx).1 x ind (le_refl _)
        have hB := (ih _ hsy).2.1 y ys ind (le_refl _) hind
        rw [ni_cons, di_cons]
        simp only [List.length_append, List.length_cons, indentChars,
          List.length_replicate]
        omega
    · intro k v kvs ind hsz
      cases kvs with
      | nil =>
        have hsv : sizeOf v < n := by simp at hsz; omega
        have hA := (ih _ hsv).1 v ind (le_refl _)
        rw [nf_nil, df_nil]
        simp only [List.length_append, List.length_cons, indentChars,
          List.length_replicate]
        omega
      | cons kv2 ps =>
        obtain ⟨k2, v2⟩ := kv2
        have hsv : sizeOf v < n := by simp at hsz; omega
        have hsp : sizeOf v2 + sizeOf ps < n := by simp at hsz; omega
        have hA := (ih _ hsv).1 v ind (le_refl _)
        have hC := (ih _ hsp).2.2 k2 v2 ps ind (le_refl _)
        rw [nf_cons, df_cons]
        simp only [List.length_append, List.length_cons, indentChars,
          List.length_replicate]
        omega

theorem loads_dumps (j : Json) : Json.loads (Json.dumps j) = some j := by
  have hlen : needVal j ≤ (dumpsVal 0 j).length + 1 := by
    have := (need_le_length (sizeOf j)).1 j 0 (le_refl _)
    omega
  have hmain := (parse_dumps ((dumpsVal 0 j).length + 1)).1 j 0 [] hlen rfl
  rw [List.append_nil] at hmain
  rw [Json.loads]
  rw [show (Json.dumps j).data = dumpsVal 0 j from rfl,
    show (Json.dumps j).length = (dumpsVal 0 j).length from rfl, hmain]
  rfl

/-- C6: round-trip — for every JSON value the backend returns on a 2xx
response, whatever its shape, the tool's returned text is
`json.dumps` of that value and, parsed back with `json.loads`, is
deeply equal to the original value; the bridge performs no semantic
transformation, only re-serialization. -/
theorem C6_json_roundtrip :
    ∀ (tc : ToolCall) (st : ApiState) (backend : HttpRequest → BackendOutcome)
      (status : Nat) (j : Json),
      backend (toolRequest tc st).2 = .response status (some j) →
      200 ≤ status → status < 300 →
      (runTool tc st backend).result = .ok (Json.dumps j)
      ∧ Json.loads (Json.dumps j) = some j := by
  intro tc st backend status j hresp h2 h3
  refine ⟨?_, loads_dumps j⟩
  rw [runTool_eq]
  simp only [hresp]
  have hr : raiseForStatus status = false := by
    simp only [raiseForStatus, Bool.and_eq_false_iff, decide_eq_false_iff_not]
    omega
  simp [handleResponse, hr, Except.map]

/-- Witness for C6: `get_lead` with backend response
`{"leads": [{"id": "l1", "score": 82}]}` returns exactly that value as
text, and parsing the text recovers the value. -/
theorem C6_json_roundtrip_witness :
    (runTool (.get_lead "l1") initState
        (fun _ => .response 200 (some (Json.obj [("leads",
          Json.arr [Json.obj [("id", Json.str "l1"), ("score", Json.num 82)]])])))).result
      = .ok (Json.dumps (Json.obj [("leads",
          Json.arr [Json.obj [("id", Json.str "l1"), ("score", Json.num 82)]])]))
    ∧ Json.loads (Json.dumps (Json.obj [("leads",
        Json.arr [Json.obj [("id", Json.str "l1"), ("score", Json.num 82)]])]))
      = some (Json.obj [("leads",
          Json.arr [Json.obj [("id", Json.str "l1"), ("score", Json.num 82)]])]) :=
  C6_json_roundtrip (.get_lead "l1") initState
    (fun _ => .response 200 (some (Json.obj [("leads",
      Json.arr [Json.obj [("id", Json.str "l1"), ("score", Json.num 82)]])])))
    200
    (Json.obj [("leads", Json.arr [Json.obj [("id", Json.str "l1"), ("score", Json.num 82)]])])
    rfl (by decide) (by decide)
